import Mathlib

/-!
Verification of the radix client coordination layer (`client.go`).

The file shallowly embeds `client.go`.  The external collaborators that
`client.go` uses but that are defined elsewhere in the project — the
connection pool, the physical connection and its codec, `Reply`, `Future`,
the batch machinery behind `MultiCommand` and the subscription transport —
are modelled from the specification and are marked as such in their doc
comments.  Go panics are modelled by `Option`: a function returns `none`
exactly when the corresponding Go code panics.
-/

namespace Radix

/-- Connections are opaque handles; `client.go` never inspects them.
Modelled from the spec: the physical connection type is external. -/
abbrev Conn := Nat

/-- Command names (the Go `Command` string type is external to `client.go`). -/
abbrev Cmd := String

/-- A single command argument (Go `interface\x7b\x7d`); the coordination
layer only forwards arguments, so an opaque type suffices. -/
abbrev Arg := String

/-- Errors are opaque values.  Modelled from the spec: the `Error` type is
external to `client.go`. -/
structure Err where
  code : Nat
deriving DecidableEq, Repr

/-- The error a pool acquisition reports when it cannot supply a connection.
Modelled from the spec: pool policy is external. -/
def poolClosedErr : Err := ⟨0⟩

/-- Outcome of one command execution.  Modelled from the spec: `Reply`
carries either a successful result or an error. -/
structure Reply where
  val : Option String
  err : Option Err
deriving DecidableEq, Repr

/-- Modelled from the spec: the `connectionPool` is external to `client.go`.
The idle set is a list of slots; a slot may hold `none`
(the pool's `release` accepts null to signal a discarded connection). -/
abbrev Pool := List (Option Conn)

/-- Number of idle connections in the pool (null slots are not connections). -/
def idleCount (p : Pool) : Nat := p.countP (·.isSome)

/-- Modelled from the spec: `acquire() -> Connection | AcquisitionError`;
returns an idle slot or fails when none is available. -/
def pull : Pool → Except Err (Option Conn × Pool)
  | [] => .error poolClosedErr
  | o :: rest => .ok (o, rest)

/-- Modelled from the spec: `release(Connection | null)`; a null value is a
valid no-op, otherwise the connection rejoins the idle set. -/
def push (o : Option Conn) (p : Pool) : Pool :=
  match o with
  | none => p
  | some c => p ++ [some c]

/-- Configuration of a database client (`client.go`, struct `Configuration`). -/
structure Configuration where
  address : String
  path : String
  database : Int
  auth : String
  poolSize : Int
  timeout : Int
  noLoadingRetry : Bool
deriving DecidableEq, Repr

/-- Validation and defaulting, `checkConfiguration` (`client.go:162-180`).
The Go function mutates the configuration in place and panics when both the
tcp/ip address and the unix path are set; here the updated configuration is
returned and the panic is `none`. -/
def checkConfiguration (c : Configuration) : Option Configuration :=
  if c.address ≠ "" ∧ c.path ≠ "" then
    none
  else
    let c := if c.address = "" ∧ c.path = "" then
        { c with address := "127.0.0.1:6379" } else c
    let c := if c.database < 0 then { c with database := 0 } else c
    let c := if c.poolSize ≤ 0 then { c with poolSize := 10 } else c
    some c

/-- Client state visible to `client.go`: the validated configuration and the
pool.  (The mutex only guards fields we model as values.) -/
structure Client where
  configuration : Configuration
  pool : Pool
deriving DecidableEq, Repr

/-- Constructor `NewClient` (`client.go:28-39`): validates the configuration
(panic on contradictory address+path) and builds the client around a fresh
pool.  `newConnectionPool` is external; the initial pool contents are a
parameter. -/
def NewClient (initialPool : Configuration → Pool) (conf : Configuration) :
    Option Client :=
  match checkConfiguration conf with
  | none => none
  | some conf' => some { configuration := conf', pool := initialPool conf' }

/-- Single command execution, `Command` (`client.go:63-81`): acquires a
connection from the pool; on acquisition failure returns a reply carrying
only that error; otherwise runs the codec (`conn.command`, external, passed
as a parameter) on the leased connection and releases the connection via the
deferred `pool.push` before returning.  A `nil` leased connection would make
`conn.command` panic (`none`). -/
def Command (codec : Conn → Cmd → List Arg → Reply) (pool : Pool)
    (cmd : Cmd) (args : List Arg) : Option (Reply × Pool) :=
  match pull pool with
  | .error e => some ({ val := none, err := some e }, pool)
  | .ok (oconn, p1) =>
    match oconn with
    | some conn => some (codec conn cmd args, push (some conn) p1)
    | none => none

/-- A sequence of sequential `Command` calls threading the pool state. -/
def seqCommands (codec : Conn → Cmd → List Arg → Reply) :
    List (Cmd × List Arg) → Pool → Option Pool
  | [], pool => some pool
  | (c, a) :: rest, pool =>
    match Command codec pool c a with
    | none => none
    | some (_, p') => seqCommands codec rest p'

/-- A deterministic codec used to instantiate theorems at concrete inputs. -/
def fakeCodec (conn : Conn) (cmd : Cmd) (args : List Arg) : Reply :=
  { val := some (cmd ++ "/" ++ toString conn ++ "/" ++ toString args.length),
    err := none }

/-- A second deterministic codec, one that reports a protocol error. -/
def failingCodec (_conn : Conn) (_cmd : Cmd) (_args : List Arg) : Reply :=
  { val := none, err := some ⟨42⟩ }

/-- Drain loop of `Close` (`client.go:42-60`), with the acquisition counter
`poolUsage` and the number of `conn.close()` invocations made explicit.
Each iteration pulls from the pool; on acquisition failure it stops;
otherwise it increments `poolUsage`, closes the connection if it is not nil,
and returns once `poolUsage` equals the configured pool size.  The result is
(successful acquisitions, close invocations, remaining pool). -/
def closeLoop (poolSize : Int) (acq closes : Nat) : Pool → Nat × Nat × Pool
  | [] => (acq, closes, [])
  | o :: rest =>
    let acq' := acq + 1
    let closes' := if o.isSome then closes + 1 else closes
    if (acq' : Int) = poolSize then (acq', closes', rest)
    else closeLoop poolSize acq' closes' rest

/-- Method `Close` (`client.go:42-60`): drains the client's pool, reading
`PoolSize` from the stored configuration. -/
def Close (c : Client) : Nat × Nat × Pool :=
  closeLoop c.configuration.poolSize 0 0 c.pool

/-- A concrete client used to instantiate the `Close` theorems. -/
def drainClient : Client :=
  { configuration := ⟨"127.0.0.1:6379", "", 0, "", 10, 0, false⟩,
    pool := [some 0] }

/-- What a build callback contributes to a batch.  Modelled from the spec:
`buildFn` records queued commands against the batch handle; the client never
inspects it, so the recorded command list is an opaque token. -/
abbrev BuildFn := List Cmd

/-- Batch core, `multiCommand` (`client.go:94-107`): acquires one connection
for the whole batch; on acquisition failure returns a reply carrying that
error; otherwise runs the external batch machinery
(`newMultiCommand(transaction, conn).process(f)`, passed as the `batch`
parameter) and releases the connection via the deferred `pool.push`.  A nil
leased connection would make the batch machinery panic (`none`). -/
def multiCommand (batch : Bool → Conn → BuildFn → Reply) (transaction : Bool)
    (pool : Pool) (f : BuildFn) : Option (Reply × Pool) :=
  match pull pool with
  | .error e => some ({ val := none, err := some e }, pool)
  | .ok (oconn, p1) =>
    match oconn with
    | some conn => some (batch transaction conn f, push (some conn) p1)
    | none => none

/-- Method `MultiCommand` (`client.go:110-112`): `multiCommand` with the
transactional flag off. -/
def MultiCommand (batch : Bool → Conn → BuildFn → Reply) (pool : Pool)
    (f : BuildFn) : Option (Reply × Pool) :=
  multiCommand batch false pool f

/-- Method `Transaction` (`client.go:117-119`): `multiCommand` with the
transactional flag on. -/
def Transaction (batch : Bool → Conn → BuildFn → Reply) (pool : Pool)
    (f : BuildFn) : Option (Reply × Pool) :=
  multiCommand batch true pool f

/-- A deterministic batch executor used to instantiate theorems. -/
def fakeBatch (t : Bool) (conn : Conn) (f : BuildFn) : Reply :=
  { val := some (toString conn ++ "/" ++ toString f.length ++ "/" ++
      toString t), err := none }

/-- A second deterministic batch executor, one that reports an error. -/
def failingBatch (_t : Bool) (_conn : Conn) (_f : BuildFn) : Reply :=
  { val := none, err := some ⟨9⟩ }

/-- One-shot asynchronous result container.  Modelled from the spec:
`Future` is a single-assignment cell holding one eventual `Reply`. -/
structure Future where
  reply : Option Reply
deriving DecidableEq, Repr

/-- Fresh unfulfilled future (`newFuture`, external). -/
def newFuture : Future := ⟨none⟩

/-- Fulfilling a future (`fut.setReply`, external).  Modelled from the spec:
the single assignment of the future's reply. -/
def setReply (_f : Future) (r : Reply) : Future := ⟨some r⟩

/-- Method `AsyncCommand` (`client.go:84-92`): creates a future and spawns a
goroutine that runs `Command` and fulfills the future with its reply.  In
this sequential embedding the result is the future's final state once the
goroutine has run; a panic inside the goroutine is `none`. -/
def AsyncCommand (codec : Conn → Cmd → List Arg → Reply) (pool : Pool)
    (cmd : Cmd) (args : List Arg) : Option Future :=
  match Command codec pool cmd args with
  | none => none
  | some (r, _) => some (setReply newFuture r)

/-- Method `AsyncMultiCommand` (`client.go:122-130`): like `AsyncCommand`
but the goroutine runs `MultiCommand`. -/
def AsyncMultiCommand (batch : Bool → Conn → BuildFn → Reply) (pool : Pool)
    (f : BuildFn) : Option Future :=
  match MultiCommand batch pool f with
  | none => none
  | some (r, _) => some (setReply newFuture r)

/-- Method `AsyncTransaction` (`client.go:133-141`): like `AsyncCommand`
but the goroutine runs `Transaction`. -/
def AsyncTransaction (batch : Bool → Conn → BuildFn → Reply) (pool : Pool)
    (f : BuildFn) : Option Future :=
  match Transaction batch pool f with
  | none => none
  | some (r, _) => some (setReply newFuture r)

/-- Message handlers are opaque; a missing (`nil`) handler is `none` at the
call site.  Modelled from the spec: handlers are external callbacks. -/
abbrev Handler := Nat

/-- Live subscription objects are opaque.  Modelled from the spec: the
subscription session type is external to `client.go`. -/
abbrev Sub := Nat

/-- Method `Subscription` (`client.go:147-158`): panics when the message
handler is nil; otherwise runs the external `newSubscription` handshake
(passed as a parameter) and returns either the subscription or the setup
error. -/
def Subscription (newSub : Handler → Except Err Sub)
    (msgHdlr : Option Handler) : Option (Option Sub × Option Err) :=
  match msgHdlr with
  | none => none
  | some hdlr =>
    match newSub hdlr with
    | .error e => some (none, some e)
    | .ok s => some (some s, none)

/-- A deterministic subscription handshake used to instantiate theorems. -/
def fakeNewSub (hdlr : Handler) : Except Err Sub :=
  if hdlr = 0 then .error ⟨7⟩ else .ok hdlr

/-- A heap of configuration cells; models Go pointers to `Configuration`
values for the frame property of `NewClient`'s by-value parameter. -/
structure ConfHeap where
  cells : List Configuration
deriving DecidableEq, Repr

/-- Dereference a configuration pointer. -/
def readCell (h : ConfHeap) (i : Nat) : Option Configuration := h.cells[i]?

/-- Mutate the configuration a pointer refers to. -/
def writeCell (h : ConfHeap) (i : Nat) (c : Configuration) : ConfHeap :=
  ⟨h.cells.set i c⟩

/-- Heap-level view of `NewClient` (`client.go:28-39`): the parameter
`conf Configuration` is passed by value, so the function works on a private
copy of the caller's value; `&conf` then stores a pointer to that copy,
modelled as a freshly allocated cell holding the validated copy.  Returns
the heap and the client's configuration pointer; the validation panic is
`none`. -/
def NewClientAlloc (h : ConfHeap) (conf : Configuration) :
    Option (ConfHeap × Nat) :=
  match checkConfiguration conf with
  | none => none
  | some conf' => some (⟨h.cells ++ [conf']⟩, h.cells.length)

end Radix

namespace Radix

theorem Command_idleCount (codec : Conn → Cmd → List Arg → Reply)
    (pool : Pool) (cmd : Cmd) (args : List Arg) (r : Reply) (p' : Pool)
    (h : Command codec pool cmd args = some (r, p')) :
    idleCount p' = idleCount pool := by
  match pool with
  | [] =>
    simp only [Command, pull, Option.some.injEq, Prod.mk.injEq] at h
    rw [← h.2]
  | none :: rest => simp [Command, pull] at h
  | some c :: rest =>
    simp only [Command, pull, push, Option.some.injEq, Prod.mk.injEq] at h
    rw [← h.2]
    simp [idleCount, List.countP_append, List.countP_cons]

theorem seqCommands_idleCount (codec : Conn → Cmd → List Arg → Reply)
    (cmds : List (Cmd × List Arg)) : ∀ (pool p' : Pool),
    seqCommands codec cmds pool = some p' → idleCount p' = idleCount pool := by
  induction cmds with
  | nil =>
    intro pool p' h
    simp only [seqCommands] at h
    rw [Option.some.injEq] at h
    rw [h]
  | cons ca rest ih =>
    intro pool p' h
    obtain ⟨c, a⟩ := ca
    simp only [seqCommands] at h
    match hcmd : Command codec pool c a with
    | none => rw [hcmd] at h; exact absurd h (by simp)
    | some (r, p1) =>
      rw [hcmd] at h
      exact (ih p1 p' h).trans (Command_idleCount codec pool c a r p1 hcmd)

/-- C1: when the pool acquisition inside `Command` succeeds (with a real
connection), the leased connection is pushed back into the pool exactly once
before the call returns — the returned pool is precisely `push conn` of the
remainder, on codec success and codec failure alike (the codec is
universally quantified) — and consequently any sequence of sequential
`Command` calls that returns leaves the pool's idle count unchanged. -/
theorem Command_releases_lease_and_preserves_idleCount
    (codec : Conn → Cmd → List Arg → Reply) (pool : Pool)
    (cmd : Cmd) (args : List Arg) :
    (∀ conn rest, pull pool = .ok (some conn, rest) →
      Command codec pool cmd args =
        some (codec conn cmd args, push (some conn) rest)) ∧
    (∀ cmds p', seqCommands codec cmds pool = some p' →
      idleCount p' = idleCount pool) := by
  constructor
  · intro conn rest hpull
    match pool with
    | [] => exact absurd hpull (by simp [pull])
    | o :: tl =>
      simp only [pull, Except.ok.injEq, Prod.mk.injEq] at hpull
      simp only [Command, pull, hpull.1, hpull.2]
  · exact fun cmds p' h => seqCommands_idleCount codec cmds pool p' h

/-- Closed witness for `Command_releases_lease_and_preserves_idleCount`,
instantiated with the deterministic fake codec on a one-connection pool. -/
theorem Command_releases_lease_and_preserves_idleCount_witness :
    Command fakeCodec [some 1] "GET" ["k"] =
      some (fakeCodec 1 "GET" ["k"], push (some 1) []) ∧
    idleCount [some 1] = idleCount [some 1] :=
  ⟨(Command_releases_lease_and_preserves_idleCount fakeCodec [some 1]
      "GET" ["k"]).1 1 [] rfl,
   (Command_releases_lease_and_preserves_idleCount fakeCodec [some 1]
      "GET" ["k"]).2 [("GET", ["k"])] [some 1] rfl⟩

/-- C4: when the pool acquisition inside `Command` fails, the returned reply
carries exactly the acquisition error and no value, the pool is untouched,
and the codec is never consulted (the result is the same for every codec). -/
theorem Command_acquisition_error_short_circuits
    (codec codec' : Conn → Cmd → List Arg → Reply) (pool : Pool)
    (cmd : Cmd) (args : List Arg) (e : Err) (h : pull pool = .error e) :
    Command codec pool cmd args = some ({ val := none, err := some e }, pool) ∧
    Command codec pool cmd args = Command codec' pool cmd args := by
  match pool with
  | [] =>
    simp only [pull, Except.error.injEq] at h
    subst h
    exact ⟨rfl, rfl⟩
  | o :: tl => exact absurd h (by simp [pull])

/-- Closed witness for `Command_acquisition_error_short_circuits` on the
empty pool, with two different codecs. -/
theorem Command_acquisition_error_short_circuits_witness :
    Command fakeCodec [] "GET" ["k"] =
      some ({ val := none, err := some poolClosedErr }, []) ∧
    Command fakeCodec [] "GET" ["k"] = Command failingCodec [] "GET" ["k"] :=
  Command_acquisition_error_short_circuits fakeCodec failingCodec []
    "GET" ["k"] poolClosedErr rfl

/-- C6: constructing a client from a `Configuration` with both the address
and the path non-empty panics (`checkConfiguration` returns `none`, hence so
does `NewClient`); with at most one of them set, `checkConfiguration`
succeeds and `NewClient` does not raise this error. -/
theorem newClient_both_address_and_path_fatal (conf : Configuration) :
    (conf.address ≠ "" ∧ conf.path ≠ "" →
      checkConfiguration conf = none ∧
      ∀ ip, NewClient ip conf = none) ∧
    (¬(conf.address ≠ "" ∧ conf.path ≠ "") →
      (checkConfiguration conf).isSome ∧
      ∀ ip, (NewClient ip conf).isSome) := by
  constructor
  · intro hboth
    have hc : checkConfiguration conf = none := by
      unfold checkConfiguration
      simp [hboth]
    exact ⟨hc, fun ip => by unfold NewClient; rw [hc]⟩
  · intro hnot
    have hc : checkConfiguration conf =
        some (let c := if conf.address = "" ∧ conf.path = "" then
                { conf with address := "127.0.0.1:6379" } else conf
              let c := if c.database < 0 then { c with database := 0 } else c
              if c.poolSize ≤ 0 then { c with poolSize := 10 } else c) := by
      unfold checkConfiguration
      simp [hnot]
    refine ⟨by rw [hc]; rfl, fun ip => ?_⟩
    unfold NewClient
    rw [hc]
    rfl

/-- Closed witness for `newClient_both_address_and_path_fatal`: instantiated
at a configuration with both fields set (branch one) and at the zero
configuration (branch two). -/
theorem newClient_both_address_and_path_fatal_witness :
    checkConfiguration ⟨"a", "p", 0, "", 0, 0, false⟩ = none ∧
    (checkConfiguration ⟨"", "", 0, "", 0, 0, false⟩).isSome := by
  refine ⟨((newClient_both_address_and_path_fatal
      ⟨"a", "p", 0, "", 0, 0, false⟩).1 (by decide)).1, ?_⟩
  exact ((newClient_both_address_and_path_fatal
      ⟨"", "", 0, "", 0, 0, false⟩).2 (by decide)).1

/-- C7: defaulting in `checkConfiguration`.  When neither address nor path
is set the address becomes `127.0.0.1:6379`; a negative database index
becomes 0; a non-positive pool size becomes 10; all other fields are
unchanged, and the address/path keep their values when one of them is set.
In particular the zero-value configuration yields address `127.0.0.1:6379`,
database 0 and pool size 10. -/
theorem checkConfiguration_defaults (conf : Configuration) :
    (¬(conf.address ≠ "" ∧ conf.path ≠ "") →
      ∃ c', checkConfiguration conf = some c' ∧
        c'.address = (if conf.address = "" ∧ conf.path = ""
            then "127.0.0.1:6379" else conf.address) ∧
        c'.path = conf.path ∧
        c'.database = (if conf.database < 0 then 0 else conf.database) ∧
        c'.poolSize = (if conf.poolSize ≤ 0 then 10 else conf.poolSize) ∧
        c'.auth = conf.auth ∧
        c'.timeout = conf.timeout ∧
        c'.noLoadingRetry = conf.noLoadingRetry) ∧
    checkConfiguration ⟨"", "", 0, "", 0, 0, false⟩ =
      some ⟨"127.0.0.1:6379", "", 0, "", 10, 0, false⟩ := by
  refine ⟨fun hnot => ?_, by decide⟩
  unfold checkConfiguration
  rw [if_neg hnot]
  refine ⟨_, rfl, ?_⟩
  by_cases h1 : conf.address = "" ∧ conf.path = "" <;>
    (first | simp only [if_pos h1] | simp only [if_neg h1]) <;>
    by_cases h2 : conf.database < 0 <;>
    (first | simp only [if_pos h2] | simp only [if_neg h2]) <;>
    by_cases h3 : conf.poolSize ≤ 0 <;>
    (first | simp only [if_pos h3] | simp only [if_neg h3]) <;>
    simp_all

theorem closeLoop_acq_lower (N : Int) :
    ∀ (pool : Pool) (acq closes : Nat),
      acq ≤ (closeLoop N acq closes pool).1 := by
  intro pool
  induction pool with
  | nil => intro acq closes; simp [closeLoop]
  | cons o rest ih =>
    intro acq closes
    by_cases h : ((acq + 1 : Nat) : Int) = N
    · simp [closeLoop, h]
    · simp only [closeLoop, if_neg h]
      exact le_trans (Nat.le_succ acq) (ih (acq + 1) _)

theorem closeLoop_acq_stop (N : Int) :
    ∀ (pool : Pool) (acq closes : Nat),
      ((closeLoop N acq closes pool).1 : Int) = N ∨
        (closeLoop N acq closes pool).1 = acq + pool.length := by
  intro pool
  induction pool with
  | nil => intro acq closes; right; simp [closeLoop]
  | cons o rest ih =>
    intro acq closes
    by_cases h : ((acq + 1 : Nat) : Int) = N
    · left
      simp [closeLoop, h]
    · simp only [closeLoop, if_neg h]
      rcases ih (acq + 1) (if o.isSome then closes + 1 else closes) with
        h1 | h1
      · exact Or.inl h1
      · right
        rw [h1]
        simp [List.length_cons]
        omega

theorem closeLoop_acq_upper (N : Int) :
    ∀ (pool : Pool) (acq closes : Nat), (acq : Int) < N →
      ((closeLoop N acq closes pool).1 : Int) ≤ N := by
  intro pool
  induction pool with
  | nil =>
    intro acq closes hlt
    simp only [closeLoop]
    exact le_of_lt hlt
  | cons o rest ih =>
    intro acq closes hlt
    by_cases h : ((acq + 1 : Nat) : Int) = N
    · simp [closeLoop, h]
    · simp only [closeLoop, if_neg h]
      exact ih (acq + 1) _ (by push_cast at hlt h ⊢; omega)

theorem closeLoop_closes_eq (N : Int) :
    ∀ (pool : Pool) (acq closes : Nat),
      (closeLoop N acq closes pool).2.1 =
        closes + ((pool.take ((closeLoop N acq closes pool).1 - acq)).countP
          (·.isSome)) := by
  intro pool
  induction pool with
  | nil => intro acq closes; simp [closeLoop]
  | cons o rest ih =>
    intro acq closes
    by_cases h : ((acq + 1 : Nat) : Int) = N
    · simp only [closeLoop, if_pos h]
      simp only [Nat.add_sub_cancel_left, List.take_succ_cons,
        List.take_zero, List.countP_cons, List.countP_nil]
      cases o <;> simp
    · simp only [closeLoop, if_neg h]
      have hlow := closeLoop_acq_lower N rest (acq + 1)
        (if o.isSome then closes + 1 else closes)
      have hih := ih (acq + 1) (if o.isSome then closes + 1 else closes)
      have hsub : (closeLoop N (acq + 1)
            (if o.isSome then closes + 1 else closes) rest).1 - acq =
          ((closeLoop N (acq + 1)
            (if o.isSome then closes + 1 else closes) rest).1 - (acq + 1))
            + 1 := by omega
      rw [hsub, List.take_succ_cons, List.countP_cons, hih]
      cases o <;> simp <;> omega

/-- C2: on a client whose configured pool size is at least 1 (which
`checkConfiguration` guarantees), `Close` — a structurally terminating
drain — performs at most `PoolSize` successful acquisitions, invokes
`close()` on at most that many connections, and stops exactly when either
the acquisition count reaches `PoolSize` or an acquisition fails because the
pool is exhausted. -/
theorem Close_drains_at_most_poolSize (c : Client)
    (h : 1 ≤ c.configuration.poolSize) :
    ((Close c).1 : Int) ≤ c.configuration.poolSize ∧
    (Close c).2.1 ≤ (Close c).1 ∧
    (((Close c).1 : Int) = c.configuration.poolSize ∨
      (Close c).1 = c.pool.length) := by
  refine ⟨?_, ?_, ?_⟩
  · exact closeLoop_acq_upper _ c.pool 0 0 (by push_cast; omega)
  · have hc := closeLoop_closes_eq c.configuration.poolSize c.pool 0 0
    simp only [Close] at *
    rw [hc]
    have h1 : ((c.pool.take ((closeLoop c.configuration.poolSize 0 0
        c.pool).1 - 0)).countP (·.isSome)) ≤
        (c.pool.take ((closeLoop c.configuration.poolSize 0 0
          c.pool).1 - 0)).length := List.countP_le_length _
    rw [List.length_take] at h1
    omega
  · simpa [Close] using
      closeLoop_acq_stop c.configuration.poolSize c.pool 0 0

/-- Closed witness for `Close_drains_at_most_poolSize` on a concrete client
with pool size 10 and one idle connection. -/
theorem Close_drains_at_most_poolSize_witness :
    ((Close drainClient).1 : Int) ≤ drainClient.configuration.poolSize ∧
    (Close drainClient).2.1 ≤ (Close drainClient).1 ∧
    (((Close drainClient).1 : Int) = drainClient.configuration.poolSize ∨
      (Close drainClient).1 = drainClient.pool.length) :=
  Close_drains_at_most_poolSize drainClient (by decide)

/-- C10: during `Close`, every successful acquisition counts toward the
`PoolSize` stop condition even when the acquired slot is nil, while
`close()` is invoked exactly on the non-nil acquired connections and never
on a nil one: the number of close invocations equals the count of non-nil
slots among the acquired prefix of the pool.  Concretely, a client with pool
size 2 whose pool holds a nil slot and one connection stops after 2
acquisitions having closed only 1 connection. -/
theorem Close_never_closes_nil_connection (c : Client) :
    (Close c).2.1 = ((c.pool.take (Close c).1).countP (·.isSome)) ∧
    Close { configuration := ⟨"127.0.0.1:6379", "", 0, "", 2, 0, false⟩,
            pool := [none, some 5] } = (2, 1, []) := by
  refine ⟨?_, by decide⟩
  simpa [Close] using
    closeLoop_closes_eq c.configuration.poolSize c.pool 0 0

/-- C5: `multiCommand` (hence `MultiCommand` and `Transaction`) acquires
exactly one connection for the whole batch.  On acquisition failure it
returns a reply carrying the acquisition error, leaves the pool untouched
and consults neither the build callback nor the batch machinery (the result
is the same for every batch executor and every callback); on acquisition
success the result is the batch outcome and the connection is pushed back
exactly once.  `Transaction` and `MultiCommand` are `multiCommand` with the
transactional flag on and off respectively — that flag is their only
difference. -/
theorem multiCommand_lease_discipline
    (batch batch' : Bool → Conn → BuildFn → Reply) (t : Bool)
    (pool : Pool) (f f' : BuildFn) :
    (∀ e, pull pool = .error e →
      multiCommand batch t pool f =
        some ({ val := none, err := some e }, pool) ∧
      multiCommand batch t pool f = multiCommand batch' t pool f') ∧
    (∀ conn rest, pull pool = .ok (some conn, rest) →
      multiCommand batch t pool f =
        some (batch t conn f, push (some conn) rest)) ∧
    Transaction batch pool f = multiCommand batch true pool f ∧
    MultiCommand batch pool f = multiCommand batch false pool f := by
  refine ⟨?_, ?_, rfl, rfl⟩
  · intro e he
    match pool with
    | [] =>
      simp only [pull, Except.error.injEq] at he
      subst he
      exact ⟨rfl, rfl⟩
    | o :: tl => exact absurd he (by simp [pull])
  · intro conn rest hpull
    match pool with
    | [] => exact absurd hpull (by simp [pull])
    | o :: tl =>
      simp only [pull, Except.ok.injEq, Prod.mk.injEq] at hpull
      simp only [multiCommand, pull, hpull.1, hpull.2]

/-- Closed witness for `multiCommand_lease_discipline`: the empty pool for
the acquisition-failure branch and a one-connection pool for the success
branch. -/
theorem multiCommand_lease_discipline_witness :
    (multiCommand fakeBatch true [] ["SET"] =
      some ({ val := none, err := some poolClosedErr }, []) ∧
     multiCommand fakeBatch true [] ["SET"] =
      multiCommand failingBatch true [] ["GET"]) ∧
    multiCommand fakeBatch false [some 3] ["SET"] =
      some (fakeBatch false 3 ["SET"], push (some 3) []) :=
  ⟨(multiCommand_lease_discipline fakeBatch failingBatch true [] ["SET"]
      ["GET"]).1 poolClosedErr rfl,
   (multiCommand_lease_discipline fakeBatch failingBatch false [some 3]
      ["SET"] ["GET"]).2.1 3 [] rfl⟩

/-- C3: the future returned by each async method starts unfulfilled and is
fulfilled exactly once — by the goroutine's single `setReply` — with
precisely the reply the corresponding synchronous method produces for the
same deterministic codec (or batch machinery) and pool state: `AsyncCommand`
against `Command`, `AsyncMultiCommand` against `MultiCommand`,
`AsyncTransaction` against `Transaction`. -/
theorem async_methods_refine_sync
    (codec : Conn → Cmd → List Arg → Reply)
    (batch : Bool → Conn → BuildFn → Reply)
    (pool : Pool) (cmd : Cmd) (args : List Arg) (f : BuildFn) :
    newFuture.reply = none ∧
    (∀ r p', Command codec pool cmd args = some (r, p') →
      AsyncCommand codec pool cmd args = some (setReply newFuture r) ∧
      (setReply newFuture r).reply = some r) ∧
    (∀ r p', MultiCommand batch pool f = some (r, p') →
      AsyncMultiCommand batch pool f = some (setReply newFuture r) ∧
      (setReply newFuture r).reply = some r) ∧
    (∀ r p', Transaction batch pool f = some (r, p') →
      AsyncTransaction batch pool f = some (setReply newFuture r) ∧
      (setReply newFuture r).reply = some r) := by
  refine ⟨rfl, ?_, ?_, ?_⟩ <;> intro r p' h
  · unfold AsyncCommand
    rw [h]
    exact ⟨rfl, rfl⟩
  · unfold AsyncMultiCommand
    rw [h]
    exact ⟨rfl, rfl⟩
  · unfold AsyncTransaction
    rw [h]
    exact ⟨rfl, rfl⟩

/-- Closed witness for `async_methods_refine_sync`, instantiated with the
deterministic fake codec and fake batch executor on one-connection pools. -/
theorem async_methods_refine_sync_witness :
    (AsyncCommand fakeCodec [some 1] "GET" ["k"] =
      some (setReply newFuture (fakeCodec 1 "GET" ["k"])) ∧
     (setReply newFuture (fakeCodec 1 "GET" ["k"])).reply =
      some (fakeCodec 1 "GET" ["k"])) ∧
    (AsyncMultiCommand fakeBatch [some 2] ["SET"] =
      some (setReply newFuture (fakeBatch false 2 ["SET"])) ∧
     (setReply newFuture (fakeBatch false 2 ["SET"])).reply =
      some (fakeBatch false 2 ["SET"])) ∧
    (AsyncTransaction fakeBatch [some 2] ["SET"] =
      some (setReply newFuture (fakeBatch true 2 ["SET"])) ∧
     (setReply newFuture (fakeBatch true 2 ["SET"])).reply =
      some (fakeBatch true 2 ["SET"])) :=
  ⟨(async_methods_refine_sync fakeCodec fakeBatch [some 1] "GET" ["k"]
      ["SET"]).2.1 _ _ rfl,
   (async_methods_refine_sync fakeCodec fakeBatch [some 2] "GET" ["k"]
      ["SET"]).2.2.1 _ _ rfl,
   (async_methods_refine_sync fakeCodec fakeBatch [some 2] "GET" ["k"]
      ["SET"]).2.2.2 _ _ rfl⟩

/-- C8: `Subscription` panics on a nil message handler; with a handler
present it returns the setup error and no subscription when the external
handshake fails, and the subscription with a nil error when the handshake
succeeds — never both a subscription and an error. -/
theorem Subscription_handler_contract (newSub : Handler → Except Err Sub) :
    Subscription newSub none = none ∧
    (∀ hdlr e, newSub hdlr = .error e →
      Subscription newSub (some hdlr) = some (none, some e)) ∧
    (∀ hdlr s, newSub hdlr = .ok s →
      Subscription newSub (some hdlr) = some (some s, none)) ∧
    (∀ hdlr res, Subscription newSub (some hdlr) = some res →
      ¬(res.1.isSome ∧ res.2.isSome)) := by
  refine ⟨rfl, ?_, ?_, ?_⟩
  · intro hdlr e he
    simp only [Subscription, he]
  · intro hdlr s hs
    simp only [Subscription, hs]
  · intro hdlr res hres
    simp only [Subscription] at hres
    match hns : newSub hdlr with
    | .error e =>
      rw [hns] at hres
      rw [← Option.some.inj hres]
      simp
    | .ok s =>
      rw [hns] at hres
      rw [← Option.some.inj hres]
      simp

/-- Closed witness for `Subscription_handler_contract` with the
deterministic fake handshake, exercising the nil-handler, failing and
succeeding branches. -/
theorem Subscription_handler_contract_witness :
    Subscription fakeNewSub none = none ∧
    Subscription fakeNewSub (some 0) = some (none, some ⟨7⟩) ∧
    Subscription fakeNewSub (some 3) = some (some 3, none) ∧
    ¬((none (α := Sub), some (⟨7⟩ : Err)).1.isSome ∧
      (none (α := Sub), some (⟨7⟩ : Err)).2.isSome) :=
  ⟨(Subscription_handler_contract fakeNewSub).1,
   (Subscription_handler_contract fakeNewSub).2.1 0 ⟨7⟩ rfl,
   (Subscription_handler_contract fakeNewSub).2.2.1 3 3 rfl,
   (Subscription_handler_contract fakeNewSub).2.2.2 0 (none, some ⟨7⟩) rfl⟩

/-- C9: `NewClient` receives the configuration by value and stores a pointer
to its own freshly allocated copy, so mutating the caller's configuration
cell after construction leaves the client's stored configuration — the cell
`Close` later reads `PoolSize` from — unchanged: it still holds the
validated copy of the value passed in, and the client's pointer is distinct
from the caller's. -/
theorem newClient_private_configuration_copy
    (heap : ConfHeap) (i : Nat) (conf conf' newConf : Configuration)
    (h2 : ConfHeap) (loc : Nat)
    (hread : readCell heap i = some conf)
    (halloc : NewClientAlloc heap conf = some (h2, loc))
    (hchk : checkConfiguration conf = some conf') :
    loc ≠ i ∧
    readCell (writeCell h2 i newConf) loc = some conf' := by
  have hi : i < heap.cells.length := by
    have := List.getElem?_eq_some_iff.mp hread
    exact this.1
  simp only [NewClientAlloc, hchk, Option.some.injEq, Prod.mk.injEq]
    at halloc
  obtain ⟨hh2, hloc⟩ := halloc
  subst hh2
  subst hloc
  refine ⟨Nat.ne_of_gt hi, ?_⟩
  simp only [readCell, writeCell]
  rw [List.getElem?_set_ne (Nat.ne_of_lt hi)]
  exact List.getElem?_concat_length _ _

/-- Closed witness for `newClient_private_configuration_copy`: a one-cell
heap holding the zero-value configuration; after construction the caller's
cell is overwritten and the client's cell still holds the defaulted copy. -/
theorem newClient_private_configuration_copy_witness :
    (1 : Nat) ≠ 0 ∧
    readCell (writeCell ⟨[⟨"", "", 0, "", 0, 0, false⟩,
        ⟨"127.0.0.1:6379", "", 0, "", 10, 0, false⟩]⟩ 0
        ⟨"10.0.0.1:1", "", 5, "x", 3, 7, true⟩) 1 =
      some ⟨"127.0.0.1:6379", "", 0, "", 10, 0, false⟩ :=
  newClient_private_configuration_copy ⟨[⟨"", "", 0, "", 0, 0, false⟩]⟩ 0
    ⟨"", "", 0, "", 0, 0, false⟩ ⟨"127.0.0.1:6379", "", 0, "", 10, 0, false⟩
    ⟨"10.0.0.1:1", "", 5, "x", 3, 7, true⟩
    ⟨[⟨"", "", 0, "", 0, 0, false⟩,
      ⟨"127.0.0.1:6379", "", 0, "", 10, 0, false⟩]⟩ 1
    rfl (by decide) (by decide)

/-- Closed witness for `checkConfiguration_defaults`: the zero-value
configuration. -/
theorem checkConfiguration_defaults_witness :
    ∃ c', checkConfiguration ⟨"", "", 0, "", 0, 0, false⟩ = some c' ∧
      c'.address = (if ("" : String) = "" ∧ ("" : String) = ""
          then "127.0.0.1:6379" else "") ∧
      c'.path = "" ∧
      c'.database = (if (0 : Int) < 0 then 0 else 0) ∧
      c'.poolSize = (if (0 : Int) ≤ 0 then 10 else 0) ∧
      c'.auth = "" ∧
      c'.timeout = (0 : Int) ∧
      c'.noLoadingRetry = false :=
  (checkConfiguration_defaults ⟨"", "", 0, "", 0, 0, false⟩).1 (by decide)

end Radix
